import Mathlib

/-!
Shallow embedding of the cashflows repository core
(src/cashflows/basics.py and src/cashflows/gcashcomp.py) over exact
rational arithmetic, with the rate converter over the reals.

Python floats are modelled by ℚ (ℝ for the fractional-power paths of
iconv); the numpy financial formulas are transcribed with their rate-zero
special cases; Python None-dispatch is modelled with Option.
-/

namespace Cashflows

/-- Future-value formula of numpy.fv: the value satisfies
fv + pv(1+r)^n + pmt(1+rw)((1+r)^n-1)/r = 0, with the r = 0 special case. -/
def np_fv (r : ℚ) (n : ℕ) (pv pmt w : ℚ) : ℚ :=
  if r = 0 then -(pv + pmt * n)
  else -(pv * (1 + r) ^ n + pmt * (1 + r * w) * ((1 + r) ^ n - 1) / r)

/-- Present-value formula of numpy.pv, with the r = 0 special case. -/
def np_pv (r : ℚ) (n : ℕ) (fv pmt w : ℚ) : ℚ :=
  if r = 0 then -(fv + pmt * n)
  else -(fv + pmt * (1 + r * w) * ((1 + r) ^ n - 1) / r) / (1 + r) ^ n

/-- Payment formula of numpy.pmt, with the r = 0 special case. -/
def np_pmt (r : ℚ) (n : ℕ) (pv fv w : ℚ) : ℚ :=
  if r = 0 then -(fv + pv) / n
  else -(fv + pv * (1 + r) ^ n) * r / ((1 + r * w) * ((1 + r) ^ n - 1))

/-- Periodic-payment vector of amortize (basics.py lines 518-524):
pmt at every period, except index 0 is zeroed when due = 0 and index
nper is zeroed when due = 1. -/
def pmtAt (pmt : ℚ) (nper due t : ℕ) : ℚ :=
  if due = 0 ∧ t = 0 then 0
  else if due = 1 ∧ t = nper then 0
  else pmt

/-- Remaining balance rembal of the amortize schedule walk
(basics.py lines 526-538). -/
def rembalSeq (pval pmt erate : ℚ) (nper due : ℕ) : ℕ → ℚ
  | 0 => pval + pmtAt pmt nper due 0
  | t + 1 =>
      rembalSeq pval pmt erate nper due t +
        (pmtAt pmt nper due (t + 1) + rembalSeq pval pmt erate nper due t * erate)

/-- Beginning balance begbal of the amortize schedule walk. -/
def begbalSeq (pval pmt erate : ℚ) (nper due : ℕ) : ℕ → ℚ
  | 0 => pval
  | t + 1 => rembalSeq pval pmt erate nper due t

/-- Interest payment ipmt of the amortize schedule walk. -/
def ipmtSeq (pval pmt erate : ℚ) (nper due : ℕ) : ℕ → ℚ
  | 0 => 0
  | t + 1 => begbalSeq pval pmt erate nper due (t + 1) * erate

/-- Principal repayment ppmt of the amortize schedule walk. -/
def ppmtSeq (pval pmt erate : ℚ) (nper due : ℕ) : ℕ → ℚ
  | 0 => pmtAt pmt nper due 0
  | t + 1 => pmtAt pmt nper due (t + 1) + ipmtSeq pval pmt erate nper due (t + 1)

/-- Tabulation of a schedule sequence into the list of periods 0..nper. -/
def seqList (f : ℕ → ℚ) (nper : ℕ) : List ℚ := (List.range (nper + 1)).map f

/-- The tuple (ppmt, ipmt, pmt, rembal) returned by amortize
(basics.py line 541). -/
def amortizeLists (pval pmt erate : ℚ) (nper due : ℕ) :
    List ℚ × List ℚ × List ℚ × List ℚ :=
  (seqList (ppmtSeq pval pmt erate nper due) nper,
   seqList (ipmtSeq pval pmt erate nper due) nper,
   seqList (pmtAt pmt nper due) nper,
   seqList (rembalSeq pval pmt erate nper due) nper)

/-- The amortize function of basics.py lines 457-541, restricted to calls
that supply pval, nrate and an integer nper (fval and pmt optional, at
most one unset); the printing path is omitted.  The None-count check, the
over-determined reset of pmt to None, the zero-pmt substitution and the
resolution of a missing pmt through tvmm (numpy.pmt) are as in the source;
a missing fval is resolved by the source but never used by the walk, so it
is not materialised. -/
def amortize (pval : ℚ) (fval pmt0 : Option ℚ) (nrate : ℚ) (nper due : ℕ)
    (pyr : ℚ) : Option (List ℚ × List ℚ × List ℚ × List ℚ) :=
  let numnone : ℕ :=
    (if fval = none then 1 else 0) + (if pmt0 = none then 1 else 0)
  if numnone > 1 then none
  else
    let pmt1 := if numnone = 0 then none else pmt0
    let pmt2 := if pmt1 = some 0 then some (1 / 10000000) else pmt1
    let pmtv := match pmt2 with
      | none => np_pmt (nrate / 100 / pyr) nper pval (fval.getD 0) (due : ℚ)
      | some p => p
    some (amortizeLists pval pmtv (nrate / pyr / 100) nper due)

/-- Result of the tvmm dispatch (basics.py lines 300-309).  The nper and
nrate branches are computed by numpy through logarithms and iterative
root-finding; they are modelled as tags without a rational value. -/
inductive TvmmResult where
  | argError : TvmmResult
  | solvedPval : ℚ → TvmmResult
  | solvedFval : ℚ → TvmmResult
  | solvedNper : TvmmResult
  | solvedPmt : ℚ → TvmmResult
  | solvedNrate : TvmmResult
  deriving DecidableEq

/-- Count of unset arguments among the five tvmm parameters
(basics.py lines 282-287). -/
def tvmmNumNone (pval fval pmt nrate : Option ℚ) (nper : Option ℕ) : ℕ :=
  (if pval = none then 1 else 0) + (if fval = none then 1 else 0) +
    (if nper = none then 1 else 0) + (if pmt = none then 1 else 0) +
    (if nrate = none then 1 else 0)

/-- Normalisation of the pmt argument in tvmm (basics.py lines 292-296):
reset to None in the over-determined case, then the exact-zero payment is
replaced by 0.0000001. -/
def tvmmAdjustPmt (pval fval pmt nrate : Option ℚ) (nper : Option ℕ) :
    Option ℚ :=
  let pmt1 := if tvmmNumNone pval fval pmt nrate nper = 0 then none else pmt
  if pmt1 = some 0 then some (1 / 10000000) else pmt1

/-- The tvmm solver of basics.py lines 239-314 on scalar arguments with an
integer nper, noprint path only. -/
def tvmm (pval fval pmt nrate : Option ℚ) (nper : Option ℕ) (due : ℕ)
    (pyr : ℚ) : TvmmResult :=
  if tvmmNumNone pval fval pmt nrate nper > 1 then TvmmResult.argError
  else
    let pmta := tvmmAdjustPmt pval fval pmt nrate nper
    let r := nrate.getD 0 / 100 / pyr
    let n := nper.getD 0
    if pval = none then
      TvmmResult.solvedPval (np_pv r n (fval.getD 0) (pmta.getD 0) (due : ℚ))
    else if fval = none then
      TvmmResult.solvedFval (np_fv r n (pval.getD 0) (pmta.getD 0) (due : ℚ))
    else if nper = none then TvmmResult.solvedNper
    else if pmta = none then
      TvmmResult.solvedPmt (np_pmt r n (pval.getD 0) (fval.getD 0) (due : ℚ))
    else TvmmResult.solvedNrate

/-- Python int() on a rational value: truncation toward zero. -/
def pyInt (q : ℚ) : ℤ := if 0 ≤ q then ⌊q⌋ else ⌈q⌉

/-- Rounding of a fractional nper in amortize (basics.py lines 508-509):
when int(nper) differs from nper, nper becomes int(nper + 0.9). -/
def amortizeNperRound (q : ℚ) : ℤ :=
  if (pyInt q : ℚ) ≠ q then pyInt (q + 9 / 10) else pyInt q

/-- Scalar-or-list argument of the Python functions. -/
inductive PyVal where
  | scalar : ℚ → PyVal
  | list : List ℚ → PyVal
  deriving DecidableEq

/-- The vars2list helper of gcashcomp.py lines 113-130: broadcast scalars
to the maximal list length, failing when two lists differ in length. -/
def vars2list (params : List PyVal) : Option (List (List ℚ)) :=
  let length := params.foldl
    (fun acc p => match p with
      | PyVal.list l => max acc l.length
      | PyVal.scalar _ => acc) 1
  if length > 1 then
    if params.any (fun p => match p with
        | PyVal.list l => l.length != length
        | PyVal.scalar _ => false) then none
    else some (params.map (fun p => match p with
      | PyVal.list l => l
      | PyVal.scalar q => List.replicate length q))
  else some (params.map (fun p => match p with
    | PyVal.list l => l
    | PyVal.scalar q => List.replicate length q))

/-- Length of an argument as numpy sees it (a scalar has length 1). -/
def npLen : PyVal → ℕ
  | PyVal.scalar _ => 1
  | PyVal.list l => l.length

/-- Element of a broadcast argument: a length-1 list and a scalar repeat
their single value, a longer list is indexed. -/
def npGet : PyVal → ℕ → ℚ
  | PyVal.scalar q, _ => q
  | PyVal.list l, i => l.getD (if l.length = 1 then 0 else i) 0

/-- Numpy 1-D broadcasting of three arguments: lengths different from 1
must all agree; the result is the common length (an error otherwise). -/
def npCompatLen (a b c : PyVal) : Option ℕ :=
  match ([npLen a, npLen b, npLen c].filter (fun l => l != 1)) with
  | [] => some 1
  | x :: rest => if rest.all (fun l => l = x) then some x else none

/-- The default (noprint) path of tvmm on list-valued pval, fval and nrate
when pmt is the unset parameter: the numpy.pmt call broadcasts its
operands during the computation with no prior length validation
(basics.py lines 306-314); vars2list runs only in the printing path after
the result exists. -/
def tvmmListsPmt (pval fval nrate : PyVal) (nper due : ℕ) (pyr : ℚ) :
    Option PyVal :=
  match npCompatLen pval fval nrate with
  | none => none
  | some len =>
      let f := fun i =>
        np_pmt (npGet nrate i / 100 / pyr) nper (npGet pval i)
          (npGet fval i) (due : ℚ)
      match pval, fval, nrate with
      | PyVal.scalar _, PyVal.scalar _, PyVal.scalar _ =>
          some (PyVal.scalar (f 0))
      | _, _, _ => some (PyVal.list ((List.range len).map f))

/-- Time series of gtimeseries.py as consumed by gcashcomp.py: a start
stamp, periods per year and the data values. -/
structure TimeSeries where
  start : ℤ × ℕ
  pyr : ℕ
  data : List ℚ
  deriving DecidableEq

/-- The verify_eq_time_range check between two series: same start, same
periods per year, same number of values. -/
def eqTimeRange (a b : TimeSeries) : Prop :=
  a.start = b.start ∧ a.pyr = b.pyr ∧ a.data.length = b.data.length

/-- The after_tax_cashflow function of gcashcomp.py lines 133-173 on a
single pair of series: each positive entry is replaced by entry times
rate over 100, each non-positive entry by zero. -/
def after_tax_cashflow (cflo tax : TimeSeries) : TimeSeries :=
  { cflo with
    data := List.zipWith
      (fun c r => if 0 < c then c * r / 100 else 0) cflo.data tax.data }

end Cashflows

namespace Cashflows

noncomputable section

open Real

/-- Nominal-rate branch of iconv (basics.py lines 608-619) on scalars,
over the reals (numpy.power on floats). -/
def iconvFromNominal (nrate : ℝ) (pyr : ℕ) : ℝ × ℝ :=
  let prate := nrate / pyr
  let erate := 100 * ((1 + prate / 100) ^ (pyr : ℝ) - 1)
  (erate, prate)

/-- Effective-rate branch of iconv (basics.py lines 621-632) on scalars,
over the reals; the root is numpy.power with exponent 1 / pyr. -/
def iconvFromEffective (erate : ℝ) (pyr : ℕ) : ℝ × ℝ :=
  let prate := 100 * ((1 + erate / 100) ^ ((1 : ℝ) / pyr) - 1)
  let nrate := pyr * prate
  (nrate, prate)

end

theorem seqListGet (f : ℕ → ℚ) (n t : ℕ) (ht : t ≤ n) :
    (seqList f n)[t]? = some (f t) := by
  have h1 : t < n + 1 := Nat.lt_succ_of_le ht
  simp [seqList, List.getElem?_map, List.getElem?_range, h1]

theorem seqList_getD (f : ℕ → ℚ) (n t : ℕ) (ht : t ≤ n) :
    (seqList f n).getD t 0 = f t := by
  simp [List.getD, seqListGet f n t ht]

theorem rangeMapSum (g : ℕ → ℚ) (n : ℕ) :
    ((List.range n).map g).sum = ∑ i ∈ Finset.range n, g i := by
  induction n with
  | zero => simp
  | succ m ih =>
      rw [List.range_succ, List.map_append, List.sum_append,
        Finset.sum_range_succ, ih]
      simp

theorem seqList_drop_one_sum (f : ℕ → ℚ) (n : ℕ) :
    ((seqList f n).drop 1).sum = ∑ i ∈ Finset.range n, f (i + 1) := by
  have h1 : seqList f n = f 0 :: (List.range n).map (fun i => f (i + 1)) := by
    simp [seqList, List.range_succ_eq_map, List.map_map]
  rw [h1]
  simp [rangeMapSum]

theorem ppmtSeq_eq_sub (pval pmt e : ℚ) (n due t : ℕ) :
    ppmtSeq pval pmt e n due (t + 1) =
      rembalSeq pval pmt e n due (t + 1) - rembalSeq pval pmt e n due t := by
  simp [ppmtSeq, ipmtSeq, begbalSeq, rembalSeq]

theorem np_pmt_balance (r A pv fv : ℚ) (hr : r ≠ 0) (hA : A - 1 ≠ 0) :
    -(fv + pv * A) * r / ((1 + r * 0) * (A - 1)) * (A - 1) / r =
      -(fv + pv * A) := by
  field_simp

theorem rembal_closed_due0 (pval pmt e : ℚ) (n : ℕ) (he : e ≠ 0) (t : ℕ) :
    rembalSeq pval pmt e n 0 t =
      pval * (1 + e) ^ t + pmt * ((1 + e) ^ t - 1) / e := by
  induction t with
  | zero => simp [rembalSeq, pmtAt]
  | succ s ih =>
      have hp : pmtAt pmt n 0 (s + 1) = pmt := by simp [pmtAt]
      simp only [rembalSeq, ih, hp]
      field_simp
      ring

/-- C3: for an amortize schedule walk with nper at least 1 and any
resolved parameters, the returned sequences satisfy, for every period t
with 1 ≤ t ≤ nper: the beginning balance equals the previous ending
balance, the interest equals the beginning balance times nrate/pyr/100,
the principal equals the payment plus the interest, and the ending
balance equals the beginning balance plus the principal. -/
theorem claim3_schedule_invariants (pval pmt nrate pyr : ℚ) (nper due : ℕ)
    (hn : 1 ≤ nper) (t : ℕ) (ht1 : 1 ≤ t) (ht2 : t ≤ nper) :
    (seqList (begbalSeq pval pmt (nrate / pyr / 100) nper due) nper).getD t 0 =
      (amortizeLists pval pmt (nrate / pyr / 100) nper due).2.2.2.getD (t - 1) 0 ∧
    (amortizeLists pval pmt (nrate / pyr / 100) nper due).2.1.getD t 0 =
      (seqList (begbalSeq pval pmt (nrate / pyr / 100) nper due) nper).getD t 0 *
        (nrate / pyr / 100) ∧
    (amortizeLists pval pmt (nrate / pyr / 100) nper due).1.getD t 0 =
      (amortizeLists pval pmt (nrate / pyr / 100) nper due).2.2.1.getD t 0 +
        (amortizeLists pval pmt (nrate / pyr / 100) nper due).2.1.getD t 0 ∧
    (amortizeLists pval pmt (nrate / pyr / 100) nper due).2.2.2.getD t 0 =
      (seqList (begbalSeq pval pmt (nrate / pyr / 100) nper due) nper).getD t 0 +
        (amortizeLists pval pmt (nrate / pyr / 100) nper due).1.getD t 0 := by
  obtain ⟨s, rfl⟩ : ∃ s, t = s + 1 :=
    ⟨t - 1, (Nat.succ_pred_eq_of_pos ht1).symm⟩
  have hs : s ≤ nper := Nat.le_of_succ_le ht2
  simp only [amortizeLists, Nat.add_sub_cancel,
    seqList_getD _ _ _ ht2, seqList_getD _ _ _ hs]
  refine ⟨rfl, rfl, rfl, ?_⟩
  simp [rembalSeq, ppmtSeq, ipmtSeq, begbalSeq]

/-- C3 witness at pval 100, pmt -30, nrate 10, pyr 1, nper 5, due 0,
period t = 1. -/
theorem claim3_schedule_invariants_witness :
    (seqList (begbalSeq 100 (-30) (10 / 1 / 100) 5 0) 5).getD 1 0 =
      (amortizeLists 100 (-30) (10 / 1 / 100) 5 0).2.2.2.getD (1 - 1) 0 ∧
    (amortizeLists 100 (-30) (10 / 1 / 100) 5 0).2.1.getD 1 0 =
      (seqList (begbalSeq 100 (-30) (10 / 1 / 100) 5 0) 5).getD 1 0 *
        (10 / 1 / 100) ∧
    (amortizeLists 100 (-30) (10 / 1 / 100) 5 0).1.getD 1 0 =
      (amortizeLists 100 (-30) (10 / 1 / 100) 5 0).2.2.1.getD 1 0 +
        (amortizeLists 100 (-30) (10 / 1 / 100) 5 0).2.1.getD 1 0 ∧
    (amortizeLists 100 (-30) (10 / 1 / 100) 5 0).2.2.2.getD 1 0 =
      (seqList (begbalSeq 100 (-30) (10 / 1 / 100) 5 0) 5).getD 1 0 +
        (amortizeLists 100 (-30) (10 / 1 / 100) 5 0).1.getD 1 0 :=
  claim3_schedule_invariants 100 (-30) 10 1 5 0 (by decide) 1 (by decide)
    (by decide)

/-- C4 counterexample: the amortize call with pval 100, pmt supplied as 5,
nrate 10, nper 0, due 1 reaches the schedule walk, whose single row has
payment 0 and ending balance 100, not payment 5 and ending balance 105 as
the claim requires of every due = 1 call. -/
theorem claim4_counterexample :
    amortize 100 none (some 5) 10 0 1 1 = some ([0], [0], [0], [100]) ∧
    (0 : ℚ) ≠ 5 ∧ (100 : ℚ) ≠ 100 + 5 := by
  refine ⟨?_, by norm_num, by norm_num⟩
  simp [amortize, amortizeLists, seqList, List.range_succ, rembalSeq, ipmtSeq,
    ppmtSeq, begbalSeq, pmtAt]

/-- C4 amended: under due = 0 the seed row has payment 0 and ending
balance pval; under due = 1 the final row payment is forced to zero, and
provided nper ≥ 1 row 0 carries the first payment, with payment pmt and
ending balance pval + pmt (when nper = 0 the forced-zero final payment is
row 0 itself). -/
theorem claim4_amended (pval pmt erate : ℚ) (nper : ℕ) :
    ((amortizeLists pval pmt erate nper 0).2.2.1.getD 0 0 = 0 ∧
      (amortizeLists pval pmt erate nper 0).2.2.2.getD 0 0 = pval) ∧
    ((amortizeLists pval pmt erate nper 1).2.2.1.getD nper 0 = 0 ∧
      (1 ≤ nper →
        (amortizeLists pval pmt erate nper 1).2.2.1.getD 0 0 = pmt ∧
        (amortizeLists pval pmt erate nper 1).2.2.2.getD 0 0 = pval + pmt)) := by
  refine ⟨⟨?_, ?_⟩, ?_, fun hn => ⟨?_, ?_⟩⟩
  · simp [amortizeLists, seqListGet _ _ _ (Nat.zero_le nper), pmtAt]
  · simp [amortizeLists, seqListGet _ _ _ (Nat.zero_le nper), rembalSeq,
      pmtAt]
  · simp [amortizeLists, seqListGet _ _ _ (Nat.le_refl nper), pmtAt]
  · have h0 : 0 ≠ nper := by omega
    simp [amortizeLists, seqListGet _ _ _ (Nat.zero_le nper), pmtAt, h0]
  · have h0 : 0 ≠ nper := by omega
    simp [amortizeLists, seqListGet _ _ _ (Nat.zero_le nper), rembalSeq,
      pmtAt, h0]

/-- C4 amended witness at pval 7, pmt 3, erate 1/2, nper 2. -/
theorem claim4_amended_witness :
    ((amortizeLists 7 3 (1 / 2) 2 0).2.2.1.getD 0 0 = 0 ∧
      (amortizeLists 7 3 (1 / 2) 2 0).2.2.2.getD 0 0 = 7) ∧
    ((amortizeLists 7 3 (1 / 2) 2 1).2.2.1.getD 2 0 = 0 ∧
      ((amortizeLists 7 3 (1 / 2) 2 1).2.2.1.getD 0 0 = 3 ∧
        (amortizeLists 7 3 (1 / 2) 2 1).2.2.2.getD 0 0 = 7 + 3)) :=
  ⟨(claim4_amended 7 3 (1 / 2) 2).1,
    ⟨(claim4_amended 7 3 (1 / 2) 2).2.1,
      (claim4_amended 7 3 (1 / 2) 2).2.2 (by decide)⟩⟩

theorem np_pmt_neg (r : ℚ) (n : ℕ) (pv fv w : ℚ) :
    np_pmt r n (-pv) (-fv) w = -np_pmt r n pv fv w := by
  unfold np_pmt
  split_ifs <;> ring

theorem pmtAt_neg (pmt : ℚ) (n due t : ℕ) :
    pmtAt (-pmt) n due t = -pmtAt pmt n due t := by
  unfold pmtAt
  split_ifs <;> simp

theorem rembalSeq_neg (pval pmt e : ℚ) (n due : ℕ) (t : ℕ) :
    rembalSeq (-pval) (-pmt) e n due t = -rembalSeq pval pmt e n due t := by
  induction t with
  | zero =>
      simp only [rembalSeq, pmtAt_neg]
      ring
  | succ s ih =>
      simp only [rembalSeq, pmtAt_neg, ih]
      ring

theorem begbalSeq_neg (pval pmt e : ℚ) (n due t : ℕ) :
    begbalSeq (-pval) (-pmt) e n due t = -begbalSeq pval pmt e n due t := by
  cases t with
  | zero => rfl
  | succ s => simp [begbalSeq, rembalSeq_neg]

theorem ipmtSeq_neg (pval pmt e : ℚ) (n due t : ℕ) :
    ipmtSeq (-pval) (-pmt) e n due t = -ipmtSeq pval pmt e n due t := by
  cases t with
  | zero => simp [ipmtSeq]
  | succ s =>
      simp only [ipmtSeq, begbalSeq_neg]
      ring

theorem ppmtSeq_neg (pval pmt e : ℚ) (n due t : ℕ) :
    ppmtSeq (-pval) (-pmt) e n due t = -ppmtSeq pval pmt e n due t := by
  cases t with
  | zero => simp [ppmtSeq, pmtAt_neg]
  | succ s =>
      simp only [ppmtSeq, pmtAt_neg, ipmtSeq_neg]
      ring

theorem seqList_neg (f g : ℕ → ℚ) (n : ℕ) (h : ∀ t, f t = -g t) :
    seqList f n = (seqList g n).map (fun x => -x) := by
  simp only [seqList, List.map_map]
  exact List.map_congr_left (fun t _ => h t)

theorem amortizeLists_neg (pval pmt e : ℚ) (n due : ℕ) :
    amortizeLists (-pval) (-pmt) e n due =
      ((amortizeLists pval pmt e n due).1.map (fun x => -x),
        (amortizeLists pval pmt e n due).2.1.map (fun x => -x),
        (amortizeLists pval pmt e n due).2.2.1.map (fun x => -x),
        (amortizeLists pval pmt e n due).2.2.2.map (fun x => -x)) := by
  simp only [amortizeLists, Prod.mk.injEq]
  exact ⟨seqList_neg _ _ _ (ppmtSeq_neg pval pmt e n due),
    seqList_neg _ _ _ (ipmtSeq_neg pval pmt e n due),
    seqList_neg _ _ _ (pmtAt_neg pmt n due),
    seqList_neg _ _ _ (rembalSeq_neg pval pmt e n due)⟩

theorem amortize_some_none (pval f nrate : ℚ) (nper due : ℕ) (pyr : ℚ) :
    amortize pval (some f) none nrate nper due pyr =
      some (amortizeLists pval
        (np_pmt (nrate / 100 / pyr) nper pval f (due : ℚ))
        (nrate / pyr / 100) nper due) := by
  simp [amortize]

theorem amortize_none_some (pval p nrate : ℚ) (nper due : ℕ) (pyr : ℚ)
    (hp : p ≠ 0) :
    amortize pval none (some p) nrate nper due pyr =
      some (amortizeLists pval p (nrate / pyr / 100) nper due) := by
  simp [amortize, hp]

theorem amortize_some_some (pval f p nrate : ℚ) (nper due : ℕ) (pyr : ℚ) :
    amortize pval (some f) (some p) nrate nper due pyr =
      some (amortizeLists pval
        (np_pmt (nrate / 100 / pyr) nper pval f (due : ℚ))
        (nrate / pyr / 100) nper due) := by
  simp [amortize]

/-- C1 counterexample: with all five parameters supplied (pval 1, fval 0,
pmt 999, nrate 100, nper 1, due 0, pyr 1) tvmm returns the payment
recomputed from the other four, namely -2; the result changes when the
supplied nrate changes (so nrate is not disregarded), differs from the
supplied nrate, and read as a nominal rate it is inconsistent with the
supplied pval, fval, pmt, nper (its implied future value is not 0). -/
theorem claim1_counterexample :
    tvmm (some 1) (some 0) (some 999) (some 100) (some 1) 0 1 =
      TvmmResult.solvedPmt (-2) ∧
    tvmm (some 1) (some 0) (some 999) (some 200) (some 1) 0 1 =
      TvmmResult.solvedPmt (-3) ∧
    TvmmResult.solvedPmt (-2) ≠ TvmmResult.solvedPmt (-3) ∧
    (-2 : ℚ) ≠ 100 ∧
    np_fv ((-2) / 100 / 1) 1 1 999 0 ≠ 0 := by
  refine ⟨?_, ?_, by simp, by norm_num, ?_⟩
  · simp [tvmm, tvmmNumNone, tvmmAdjustPmt, np_pmt]
    norm_num
  · simp [tvmm, tvmmNumNone, tvmmAdjustPmt, np_pmt]
    norm_num
  · simp [np_fv]
    norm_num

/-- C1 amended: when all five of pval, fval, pmt, nrate, nper are
supplied, tvmm and amortize recompute the payment pmt from the other
four (via the numpy.pmt formula with rate nrate/100/pyr), disregarding
the supplied pmt; the supplied nrate is used as given, not recomputed. -/
theorem claim1_amended (pval fval pmt nrate : ℚ) (nper due : ℕ) (pyr : ℚ) :
    tvmm (some pval) (some fval) (some pmt) (some nrate) (some nper) due pyr =
      TvmmResult.solvedPmt (np_pmt (nrate / 100 / pyr) nper pval fval (due : ℚ)) ∧
    amortize pval (some fval) (some pmt) nrate nper due pyr =
      some (amortizeLists pval
        (np_pmt (nrate / 100 / pyr) nper pval fval (due : ℚ))
        (nrate / pyr / 100) nper due) := by
  constructor
  · simp [tvmm, tvmmNumNone, tvmmAdjustPmt]
  · simp [amortize]

/-- C2 counterexample: for the non-integer resolved nper 101/20 = 5.05
the schedule walk uses int(5.05 + 0.9) = 5 whole periods, not the
ceiling 6. -/
theorem claim2_counterexample :
    amortizeNperRound (101 / 20) = 5 ∧ ⌈(101 / 20 : ℚ)⌉ = 6 := by
  constructor
  · norm_num [amortizeNperRound, pyInt]
  · norm_num [Int.ceil_eq_iff]

/-- C2 amended: a positive non-integer resolved nper is replaced by
int(nper + 0.9), which is the ceiling exactly when the fractional part
of nper is at least 1/10 and the floor (rounding down) when the
fractional part is below 1/10. -/
theorem claim2_amended (q : ℚ) (hq : 0 < q) (hni : (pyInt q : ℚ) ≠ q) :
    amortizeNperRound q =
      if 1 / 10 ≤ q - ⌊q⌋ then ⌈q⌉ else ⌊q⌋ := by
  have hq0 : (0 : ℚ) ≤ q := le_of_lt hq
  have hq9 : (0 : ℚ) ≤ q + 9 / 10 := by linarith
  have hfl : (pyInt q : ℚ) = (⌊q⌋ : ℚ) := by simp [pyInt, hq0]
  have hlow : (⌊q⌋ : ℚ) ≤ q := Int.floor_le q
  have hhigh : q < ⌊q⌋ + 1 := Int.lt_floor_add_one q
  have hne : (⌊q⌋ : ℚ) ≠ q := by rw [← hfl]; exact hni
  have hlt : (⌊q⌋ : ℚ) < q := lt_of_le_of_ne hlow hne
  rw [amortizeNperRound, if_pos hni]
  by_cases hcase : 1 / 10 ≤ q - ⌊q⌋
  · rw [if_pos hcase]
    have hceil : ⌈q⌉ = ⌊q⌋ + 1 := by
      rw [Int.ceil_eq_iff]
      push_cast
      constructor <;> linarith
    rw [hceil]
    simp only [pyInt, if_pos hq9]
    rw [Int.floor_eq_iff]
    push_cast
    constructor <;> linarith
  · rw [if_neg hcase]
    push_neg at hcase
    simp only [pyInt, if_pos hq9]
    rw [Int.floor_eq_iff]
    constructor <;> linarith

/-- C2 amended witness at nper = 21/2 = 10.5. -/
theorem claim2_amended_witness :
    amortizeNperRound (21 / 2) =
      if 1 / 10 ≤ (21 / 2 : ℚ) - ⌊(21 / 2 : ℚ)⌋ then ⌈(21 / 2 : ℚ)⌉
      else ⌊(21 / 2 : ℚ)⌋ :=
  claim2_amended (21 / 2) (by norm_num)
    (by norm_num [pyInt, Int.floor_eq_iff])

/-- C5 counterexample: the due = 0 call amortize(pval = 1, fval = -4,
nrate = 100, nper = 1, pyr = 1) with pmt resolved gives principal
entries summing over periods 1..nper to 3, while fval - pval = -5. -/
theorem claim5_counterexample :
    amortize 1 (some (-4)) none 100 1 0 1 =
      some ([0, 3], [0, 1], [0, 2], [1, 4]) ∧
    (([(0 : ℚ), 3].drop 1).sum = 3 ∧ ((-4 : ℚ) - 1 = -5) ∧ (3 : ℚ) ≠ -5) := by
  constructor
  · simp [amortize, amortizeLists, seqList, List.range_succ, rembalSeq,
      ipmtSeq, ppmtSeq, begbalSeq, pmtAt, np_pmt]
    norm_num
  · norm_num

/-- C5 amended: for a due = 0 amortize call with pval and fval supplied,
integer nper and nonzero periodic rate whose growth factor is not 1, the
resolved payment makes the principal entries over periods 1..nper sum to
-(pval + fval); this equals fval - pval only when fval = 0. -/
theorem claim5_amended (pval fval nrate pyr : ℚ) (nper : ℕ)
    (hr : nrate / 100 / pyr ≠ 0)
    (hg : (1 + nrate / 100 / pyr) ^ nper ≠ 1)
    (pp ip pay bal : List ℚ)
    (hcall : amortize pval (some fval) none nrate nper 0 pyr =
      some (pp, ip, pay, bal)) :
    (pp.drop 1).sum = -fval - pval := by
  have he : nrate / pyr / 100 = nrate / 100 / pyr := by ring
  have hpp : pp = seqList
      (ppmtSeq pval (np_pmt (nrate / 100 / pyr) nper pval fval 0)
        (nrate / pyr / 100) nper 0) nper := by
    simp [amortize, amortizeLists] at hcall
    exact hcall.1.symm
  subst hpp
  rw [seqList_drop_one_sum]
  have hsum : ∀ i ∈ Finset.range nper,
      ppmtSeq pval (np_pmt (nrate / 100 / pyr) nper pval fval 0)
          (nrate / pyr / 100) nper 0 (i + 1) =
        rembalSeq pval (np_pmt (nrate / 100 / pyr) nper pval fval 0)
            (nrate / pyr / 100) nper 0 (i + 1) -
          rembalSeq pval (np_pmt (nrate / 100 / pyr) nper pval fval 0)
            (nrate / pyr / 100) nper 0 i :=
    fun i _ => ppmtSeq_eq_sub _ _ _ _ _ _
  rw [Finset.sum_congr rfl hsum, Finset.sum_range_sub]
  rw [he]
  have hA : (1 + nrate / 100 / pyr) ^ nper - 1 ≠ 0 := sub_ne_zero.mpr hg
  rw [rembal_closed_due0 _ _ _ _ hr, rembal_closed_due0 _ _ _ _ hr]
  have hP : np_pmt (nrate / 100 / pyr) nper pval fval 0 *
      ((1 + nrate / 100 / pyr) ^ nper - 1) / (nrate / 100 / pyr) =
      -(fval + pval * (1 + nrate / 100 / pyr) ^ nper) := by
    rw [np_pmt, if_neg hr]
    exact np_pmt_balance (nrate / 100 / pyr)
      ((1 + nrate / 100 / pyr) ^ nper) pval fval hr hA
  simp only [pow_zero]
  rw [hP]
  ring

/-- C5 amended witness at pval 1, fval -4, nrate 100, nper 1, pyr 1. -/
theorem claim5_amended_witness :
    (([(0 : ℚ), 3].drop 1).sum = -(-4) - 1) :=
  claim5_amended 1 (-4) 100 1 1 (by norm_num)
    (by norm_num) [0, 3] [0, 1] [0, 2] [1, 4]
    (by
      simp [amortize, amortizeLists, seqList, List.range_succ, rembalSeq,
        ipmtSeq, ppmtSeq, begbalSeq, pmtAt, np_pmt]
      norm_num)

/-- C6 counterexample: for the call amortize(pval = 100, pmt = 0,
nrate = 10, nper = 1, due = 0, pyr = 1) with fval unset, negating the
supplied monetary inputs (pval to -100, pmt 0 to -0 = 0) does not negate
the payment sequence: both calls substitute 0.0000001 for the zero
payment, so entry 1 is 1/10000000 in both, not its negation. -/
theorem claim6_counterexample :
    (amortize (-100) none (some (-(0 : ℚ))) 10 1 0 1).map
        (fun x => x.2.2.1) = some [0, 1 / 10000000] ∧
    (amortize 100 none (some 0) 10 1 0 1).map
        (fun x => x.2.2.1.map (fun q => -q)) = some [0, -(1 / 10000000)] ∧
    some [(0 : ℚ), 1 / 10000000] ≠ some [(0 : ℚ), -(1 / 10000000)] := by
  refine ⟨?_, ?_, by norm_num⟩
  · simp [amortize, amortizeLists, seqList, List.range_succ, pmtAt]
  · simp [amortize, amortizeLists, seqList, List.range_succ, pmtAt]

/-- C6 amended: negating pval together with any supplied fval and pmt
negates every entry of all four output sequences elementwise, provided a
supplied pmt is nonzero (a supplied pmt of exactly zero is replaced by
0.0000001 in both calls and breaks exact antisymmetry). -/
theorem optMap_none (f : ℚ → ℚ) : Option.map f (none : Option ℚ) = none :=
  rfl

theorem optMap_some (f : ℚ → ℚ) (x : ℚ) :
    Option.map f (some x) = some (f x) :=
  rfl

theorem claim6_amended (pval : ℚ) (fval pmt0 : Option ℚ) (nrate : ℚ)
    (nper due : ℕ) (pyr : ℚ) (hp : pmt0 ≠ some 0)
    (pp ip pay bal : List ℚ)
    (hcall : amortize pval fval pmt0 nrate nper due pyr =
      some (pp, ip, pay, bal)) :
    amortize (-pval) (Option.map (fun x => -x) fval)
        (Option.map (fun x => -x) pmt0) nrate nper due pyr =
      some (pp.map (fun x => -x), ip.map (fun x => -x),
        pay.map (fun x => -x), bal.map (fun x => -x)) := by
  rcases fval with _ | f <;> rcases pmt0 with _ | p
  · simp [amortize] at hcall
  · have hp2 : p ≠ 0 := fun h0 => hp (by rw [h0])
    rw [amortize_none_some _ _ _ _ _ _ hp2] at hcall
    have h := Option.some.inj hcall
    simp only [optMap_some, optMap_none]
    rw [amortize_none_some _ _ _ _ _ _ (neg_ne_zero.mpr hp2),
      amortizeLists_neg, h]
  · rw [amortize_some_none] at hcall
    have h := Option.some.inj hcall
    simp only [optMap_some, optMap_none]
    rw [amortize_some_none, np_pmt_neg, amortizeLists_neg, h]
  · rw [amortize_some_some] at hcall
    have h := Option.some.inj hcall
    simp only [optMap_some, optMap_none]
    rw [amortize_some_some, np_pmt_neg, amortizeLists_neg, h]

/-- C6 amended witness: negating pval 1 and fval 0 negates the schedule
of amortize(pval = 1, fval = 0, nrate = 100, nper = 1, due = 0, pyr = 1)
elementwise. -/
theorem claim6_amended_witness :
    amortize (-1) (Option.map (fun x => -x) (some (0 : ℚ)))
        (Option.map (fun x => -x) none) 100 1 0 1 =
      some (([0, -1] : List ℚ).map (fun x => -x),
        ([0, 1] : List ℚ).map (fun x => -x),
        ([0, -2] : List ℚ).map (fun x => -x),
        ([1, 0] : List ℚ).map (fun x => -x)) :=
  claim6_amended 1 (some 0) none 100 1 0 1 (by simp) [0, -1] [0, 1] [0, -2]
    [1, 0]
    (by
      simp [amortize, amortizeLists, seqList, List.range_succ, rembalSeq,
        ipmtSeq, ppmtSeq, begbalSeq, pmtAt, np_pmt]
      norm_num)

/-- C7: for a scalar nominal rate x > -100 and integer pyr p ≥ 1, the
nominal branch of iconv returns periodic = x/p and effective =
100((1 + periodic/100)^p - 1), and feeding that effective rate back
through the effective branch reproduces (x, x/p) exactly. -/
theorem claim7_iconv_roundtrip (x : ℝ) (p : ℕ) (hx : -100 < x)
    (hp : 1 ≤ p) :
    iconvFromNominal x p =
      (100 * ((1 + x / p / 100) ^ (p : ℝ) - 1), x / p) ∧
    iconvFromEffective (iconvFromNominal x p).1 p = (x, x / p) := by
  have hp0 : (0 : ℝ) < p := by exact_mod_cast hp
  have hp100 : (0 : ℝ) < (p : ℝ) * 100 := by positivity
  have hb : (0 : ℝ) < 1 + x / p / 100 := by
    have hple : (1 : ℝ) ≤ (p : ℝ) := by exact_mod_cast hp
    have h1 : -((p : ℝ) * 100) < x := by nlinarith
    have h2 : -(1 : ℝ) < x / ((p : ℝ) * 100) := by
      rw [neg_lt, ← neg_div, div_lt_iff hp100]
      linarith
    rw [div_div]
    linarith
  have hkey : ((1 + x / p / 100) ^ (p : ℝ)) ^ ((1 : ℝ) / p) =
      1 + x / p / 100 := by
    rw [← Real.rpow_mul hb.le, mul_one_div, div_self (ne_of_gt hp0),
      Real.rpow_one]
  constructor
  · rfl
  · simp only [iconvFromNominal, iconvFromEffective]
    have he : (1 : ℝ) + 100 * ((1 + x / p / 100) ^ (p : ℝ) - 1) / 100 =
        (1 + x / p / 100) ^ (p : ℝ) := by ring
    rw [he, hkey, Prod.mk.injEq]
    have hpne : (p : ℝ) ≠ 0 := ne_of_gt hp0
    constructor
    · field_simp
      ring
    · field_simp
      ring

/-- C7 witness at x = 100, p = 4. -/
theorem claim7_iconv_roundtrip_witness :
    iconvFromNominal 100 4 =
      (100 * ((1 + 100 / ((4 : ℕ) : ℝ) / 100) ^ ((4 : ℕ) : ℝ) - 1),
        100 / ((4 : ℕ) : ℝ)) ∧
    iconvFromEffective (iconvFromNominal 100 4).1 4 =
      (100, 100 / ((4 : ℕ) : ℝ)) :=
  claim7_iconv_roundtrip 100 4 (by norm_num) (by norm_num)

/-- C8: a pmt supplied as exactly zero, with at least one of the other
four parameters unset, is replaced by 0.0000001: the normalised pmt is
0.0000001 and both the tvmm call and the amortize call return exactly
what they return when pmt is supplied as 0.0000001. -/
theorem claim8_zero_pmt (pval fval nrate : Option ℚ) (nper : Option ℕ)
    (due : ℕ) (pyr : ℚ) (apval anrate : ℚ) (anper adue : ℕ) (apyr : ℚ)
    (h : pval = none ∨ fval = none ∨ nrate = none ∨ nper = none) :
    tvmmAdjustPmt pval fval (some 0) nrate nper = some (1 / 10000000) ∧
    tvmm pval fval (some 0) nrate nper due pyr =
      tvmm pval fval (some (1 / 10000000)) nrate nper due pyr ∧
    amortize apval none (some 0) anrate anper adue apyr =
      amortize apval none (some (1 / 10000000)) anrate anper adue apyr := by
  have hnn1 : tvmmNumNone pval fval (some 0) nrate nper ≠ 0 := by
    rcases h with h | h | h | h <;> simp [tvmmNumNone, h]
  have hnn2 : tvmmNumNone pval fval (some (1 / 10000000)) nrate nper ≠ 0 := by
    rcases h with h | h | h | h <;> simp [tvmmNumNone, h]
  refine ⟨?_, ?_, ?_⟩
  · simp [tvmmAdjustPmt, hnn1]
  · rcases pval with _ | a <;> rcases fval with _ | b <;>
      rcases nrate with _ | c <;> rcases nper with _ | d <;>
      simp_all [tvmm, tvmmNumNone, tvmmAdjustPmt]
  · simp +decide [amortize]

/-- C8 witness at pval 5, fval unset, nrate 10, nper 2 for tvmm and
pval 5, nrate 10, nper 2, due 0, pyr 1 for amortize. -/
theorem claim8_zero_pmt_witness :
    tvmmAdjustPmt (some 5) none (some 0) (some 10) (some 2) =
      some (1 / 10000000) ∧
    tvmm (some 5) none (some 0) (some 10) (some 2) 0 1 =
      tvmm (some 5) none (some (1 / 10000000)) (some 10) (some 2) 0 1 ∧
    amortize 5 none (some 0) 10 2 0 1 =
      amortize 5 none (some (1 / 10000000)) 10 2 0 1 :=
  claim8_zero_pmt (some 5) none (some 10) (some 2) 0 1 5 10 2 0 1
    (Or.inr (Or.inl rfl))

/-- C9 counterexample: the default tvmm path with pval the list
[100, 200] (length 2) and nrate the list [10] (length 1), two list-valued
arguments of unequal lengths, raises no length-mismatch error: numpy
broadcasting yields the full result [-110, -220], even though the eager
vars2list check would have rejected these very arguments. -/
theorem claim9_counterexample :
    tvmmListsPmt (PyVal.list [100, 200]) (PyVal.scalar 0) (PyVal.list [10])
        1 0 1 = some (PyVal.list [-110, -220]) ∧
    (npLen (PyVal.list ([100, 200] : List ℚ)) = 2 ∧
      npLen (PyVal.list ([10] : List ℚ)) = 1 ∧ (2 : ℕ) ≠ 1) ∧
    vars2list [PyVal.list [100, 200], PyVal.list [10]] = none := by
  refine ⟨?_, ⟨rfl, rfl, by norm_num⟩, ?_⟩
  · simp [tvmmListsPmt, npCompatLen, npLen, npGet, np_pmt, List.range_succ]
    norm_num
  · simp [vars2list]

/-- C9 amended: the default (noprint) tvmm path applies no eager length
check; its numpy computation broadcasts list arguments, failing only when
two list arguments have unequal lengths both greater than one, in which
case no result is produced; the eager equal-length vars2list check (which
rejects any two lists of unequal lengths) belongs to the verbose printing
path only. -/
theorem claim9_amended (xs ys : List ℚ) (fv : PyVal) (nper due : ℕ)
    (pyr : ℚ) (h1 : 1 < xs.length) (h2 : 1 < ys.length)
    (hne : xs.length ≠ ys.length) :
    tvmmListsPmt (PyVal.list xs) fv (PyVal.list ys) nper due pyr = none ∧
    vars2list [PyVal.list xs, PyVal.list ys] = none := by
  constructor
  · have hxs : (xs.length != 1) = true := by simp; omega
    have hys : (ys.length != 1) = true := by simp; omega
    have hyx : ys.length ≠ xs.length := fun hh => hne hh.symm
    have hc : npCompatLen (PyVal.list xs) fv (PyVal.list ys) = none := by
      rcases fv with q | l
      · simp [npCompatLen, npLen, List.filter, hxs, hys, hyx]
      · by_cases hl : l.length = 1
        · simp [npCompatLen, npLen, List.filter, hxs, hys, hyx, hl]
        · have hll : (l.length != 1) = true := by simp [hl]
          simp [npCompatLen, npLen, List.filter, hxs, hys, hyx, hll]
    simp [tvmmListsPmt, hc]
  · simp only [vars2list, List.foldl_cons, List.foldl_nil]
    split_ifs with hgt hany
    · rfl
    · simp only [List.any_cons, List.any_nil, Bool.or_eq_true,
        bne_iff_ne] at hany
      push_neg at hany
      omega
    · omega

/-- C9 amended witness at xs = [1, 2], ys = [3, 4, 5]. -/
theorem claim9_amended_witness :
    tvmmListsPmt (PyVal.list [1, 2]) (PyVal.scalar 0) (PyVal.list [3, 4, 5])
        1 0 1 = none ∧
    vars2list [PyVal.list [1, 2], PyVal.list [3, 4, 5]] = none :=
  claim9_amended [1, 2] [3, 4, 5] (PyVal.scalar 0) 1 0 1 (by norm_num)
    (by norm_num) (by norm_num)

/-- C10: for series with equal time range, after_tax_cashflow returns at
each index the tax amount itself, cflo t times tax_rate t over 100 when
cflo t is positive and zero otherwise, not the cashflow net of tax. -/
theorem claim10_after_tax (cflo tax : TimeSeries) (h : eqTimeRange cflo tax)
    (t : ℕ) (ht : t < cflo.data.length) (ht2 : t < tax.data.length) :
    (after_tax_cashflow cflo tax).data[t]? =
      some (if 0 < cflo.data[t] then cflo.data[t] * tax.data[t] / 100
        else 0) := by
  have hlen : t <
      (List.zipWith (fun c r => if 0 < c then c * r / 100 else 0)
        cflo.data tax.data).length := by
    rw [List.length_zipWith]
    omega
  simp only [after_tax_cashflow]
  rw [List.getElem?_eq_getElem hlen, List.getElem_zipWith]

/-- C10 witness on the two-entry series [100, -100] with tax rate
[10, 10], at index 0. -/
theorem claim10_after_tax_witness :
    (after_tax_cashflow (TimeSeries.mk (0, 0) 1 [100, -100])
        (TimeSeries.mk (0, 0) 1 [10, 10])).data[0]? =
      some (if 0 < ((TimeSeries.mk (0, 0) 1 ([100, -100] : List ℚ)).data[0])
        then (TimeSeries.mk (0, 0) 1 ([100, -100] : List ℚ)).data[0] *
          (TimeSeries.mk (0, 0) 1 ([10, 10] : List ℚ)).data[0] / 100
        else 0) :=
  claim10_after_tax (TimeSeries.mk (0, 0) 1 [100, -100])
    (TimeSeries.mk (0, 0) 1 [10, 10]) ⟨rfl, rfl, rfl⟩ 0 (by norm_num)
    (by norm_num)

end Cashflows
